import Mathlib

/-!
Verification of `agents/proto-event-contracts/evals/run_evals.py`.

Shallow embedding conventions:
* Python strings are modelled as `List Char`.
* `str.lower()` is modelled as mapping `Char.toLower` over the characters
  (ASCII lowercasing; all patterns appearing in the source are ASCII).
* The two compiled regular expressions of the source are modelled by a tiny
  matcher over items that are either a literal character or a character
  class, always matched case-insensitively (both `re.compile` calls in the
  source pass `re.IGNORECASE`).  `re.escape` applied to a string produces a
  pattern matching that string literally, so it is modelled as mapping the
  literal-item constructor over the characters.
* The external world (the filesystem and the `opencode` subprocess) is a
  structure of oracle functions; `subprocess.run` is modelled by an outcome
  that is either normal completion (return code and captured text), a
  timeout, or a `FileNotFoundError`.
-/

namespace EvalRunner

/-- ASCII lowercasing of a string, modelling `str.lower()`. -/
def lowerStr (s : List Char) : List Char := s.map Char.toLower

/-- `beginsWith pat s` is true when `pat` is an initial segment of `s`. -/
def beginsWith : List Char → List Char → Bool
  | [], _ => true
  | _ :: _, [] => false
  | p :: ps, c :: cs => (p == c) && beginsWith ps cs

/-- `containsStr pat s` is true when `pat` occurs contiguously in `s`,
modelling the Python expression `pat in s` (the empty pattern occurs in
every string). -/
def containsStr (pat : List Char) : List Char → Bool
  | [] => beginsWith pat []
  | c :: s => beginsWith pat (c :: s) || containsStr pat s

/-- `containsCI out pat` is true when `pat` occurs in `out` ignoring case,
modelling `pat.lower() in out.lower()`. -/
def containsCI (out pat : List Char) : Bool :=
  containsStr (lowerStr pat) (lowerStr out)

/-- One item of a compiled regular expression: a literal character or a
character class (a set of alternative characters). -/
inductive RItem : Type
  | lit (d : Char)
  | cls (ds : List Char)
deriving DecidableEq

/-- Case-insensitive matching of one pattern item against one character,
modelling matching under `re.IGNORECASE`. -/
def itemMatch : RItem → Char → Bool
  | RItem.lit d, c => Char.toLower d == Char.toLower c
  | RItem.cls ds, c => ds.any fun d => Char.toLower d == Char.toLower c

/-- `rmatch pat s` is true when `pat` matches an initial segment of `s`. -/
def rmatch : List RItem → List Char → Bool
  | [], _ => true
  | _ :: _, [] => false
  | it :: pat, c :: s => itemMatch it c && rmatch pat s

/-- `rsearch pat s` is true when `pat` matches at some position of `s`,
modelling `re.Pattern.search` returning a match. -/
def rsearch (pat : List RItem) : List Char → Bool
  | [] => rmatch pat []
  | c :: s => rmatch pat (c :: s) || rsearch pat s

/-- The pattern compiled from `re.escape(t)`: every character of `t` is
matched literally. -/
def escapedLit (t : List Char) : List RItem := t.map RItem.lit

/-- The pattern compiled from the regex literal `must[- ]fix`
(`run_evals.py` line 66). -/
def mustFixPattern : List RItem :=
  [RItem.lit 'm', RItem.lit 'u', RItem.lit 's', RItem.lit 't',
   RItem.cls ['-', ' '],
   RItem.lit 'f', RItem.lit 'i', RItem.lit 'x']

/-- `grade_clean` (`run_evals.py` lines 59-69): a clean-expected case fails
exactly when the case-insensitive pattern `must[- ]fix` is found in the
output.  (The source also computes `lower = output.lower()` on line 65 but
never uses it.) -/
def grade_clean (output : List Char) : Bool × List Char :=
  if rsearch mustFixPattern output then
    (false, "Expected clean output but found \x27must-fix\x27 / \x27must fix\x27".data)
  else
    (true, "Clean — no must-fix findings detected".data)

/-- The single-quote character, used by Python string formatting of the
detail messages. -/
def quoteChar : Char := Char.ofNat 39

/-- Python `repr` of a string value, as it appears inside an f-string
formatting of a list (faithful for strings without quotes, backslashes or
control characters, which is all the source ever formats). -/
def pyReprStr (s : List Char) : List Char := quoteChar :: (s ++ [quoteChar])

/-- `sep.join(xs)`. -/
def joinSep (sep : List Char) : List (List Char) → List Char
  | [] => []
  | [x] => x
  | x :: y :: xs => x ++ sep ++ joinSep sep (y :: xs)

/-- Python `repr` of a list of strings, as produced by f-string formatting
such as `f"Missing keywords: {missing_keywords}"`. -/
def pyReprList (xs : List (List Char)) : List Char :=
  ('[' :: joinSep (", ".data) (xs.map pyReprStr)) ++ [']']

/-- The keywords of `keywords` that do not occur case-insensitively in
`output` (`run_evals.py` lines 80-84), in order. -/
def missingKeywords (output : List Char) (keywords : List (List Char)) :
    List (List Char) :=
  keywords.filter fun kw => !(containsStr (lowerStr kw) (lowerStr output))

/-- The severity check of `grade_finding` (`run_evals.py` lines 86-87):
a case-insensitive search for the escaped severity literal in the output. -/
def severityFound (output severity : List Char) : Bool :=
  rsearch (escapedLit severity) output

/-- The `errors` list of `grade_finding` (`run_evals.py` lines 89-93): a
message listing the missing keywords when there are any, then a message
noting the absent severity when it was not found. -/
def gradeErrors (output severity : List Char) (keywords : List (List Char)) :
    List (List Char) :=
  (if (missingKeywords output keywords).isEmpty then []
   else ["Missing keywords: ".data ++ pyReprList (missingKeywords output keywords)])
  ++
  (if severityFound output severity then []
   else [("Severity ".data ++ pyReprStr severity) ++ " not found in output".data])

/-- `grade_finding` (`run_evals.py` lines 72-97). -/
def grade_finding (output severity : List Char) (keywords : List (List Char)) :
    Bool × List Char :=
  if (gradeErrors output severity keywords).isEmpty then
    (true,
     "Found all keywords ".data ++ pyReprList keywords
       ++ " with severity ".data ++ pyReprStr severity)
  else
    (false, joinSep ("; ".data) (gradeErrors output severity keywords))

/-- Status of a recorded per-case result. -/
inductive Status : Type
  | pass
  | fail
  | skip
deriving DecidableEq

/-- One entry of the `results` list built by `main`
(`run_evals.py` lines 143, 150, 176). -/
structure Result : Type where
  caseId : List Char
  status : Status
  detail : List Char
deriving DecidableEq

/-- One entry of `cases.json` as read by `main` (`run_evals.py` lines
131-136): `severity` uses `case.get("severity")` (absent means `None`) and
`keywords` uses `case.get("keywords", [])` (the default is already folded
in). -/
structure Case : Type where
  fixture : List Char
  expect_clean : Bool
  severity : Option (List Char)
  keywords : List (List Char)
deriving DecidableEq

/-- Outcome of one `subprocess.run` invocation (`run_evals.py` lines
50-56 and the handlers on lines 146-159): normal completion with a return
code and the combined stdout+stderr text, `subprocess.TimeoutExpired`, or
`FileNotFoundError` (the `opencode` executable is not on the path). -/
inductive AgentOutcome : Type
  | completed (returncode : Int) (output : List Char)
  | timeout
  | notFound
deriving DecidableEq

/-- The external world: which paths exist on disk (`Path.exists`), how a
relative fixture path resolves against the agent directory
(`str(agent_dir / fixture)`), and what executing a command line with a
timeout does. -/
structure Env : Type where
  fixtureExists : List Char → Bool
  resolve : List Char → List Char
  exec : List (List Char) → Nat → AgentOutcome

/-- The fixed timeout passed to `subprocess.run` (`run_evals.py` line 54). -/
def agentTimeout : Nat := 120

/-- The fixed instruction string of the command template
(`run_evals.py` lines 43-45). -/
def instruction : List Char :=
  ("Review this proto file against the event contract standard. "
    ++ "List any must-fix or should-fix findings. "
    ++ "If the file is clean, say so explicitly.").data

/-- The command line built by `run_agent` (`run_evals.py` lines 39-48). -/
def buildCmd (fixture_path : List Char) (model : Option (List Char)) :
    List (List Char) :=
  ["opencode".data, "run".data,
   "--agent".data, "proto-event-contracts".data,
   "-f".data, fixture_path,
   instruction]
  ++ (match model with
      | some m => ["--model".data, m]
      | none => [])

/-- `run_agent` (`run_evals.py` lines 33-56): build the command and run it
with the fixed 120-unit timeout. -/
def run_agent (env : Env) (fixture_path : List Char)
    (model : Option (List Char)) : AgentOutcome :=
  env.exec (buildCmd fixture_path model) agentTimeout

/-- Result of a Python call that may raise an uncaught `TypeError`. -/
inductive PyResult (α : Type) : Type
  | ok (a : α)
  | typeError
deriving DecidableEq

/-- The grading dispatch of `main` (`run_evals.py` lines 167-171):
clean-expected cases go to `grade_clean`; otherwise `grade_finding` is
called with `severity = case.get("severity")`.  When that value is `None`,
`re.escape(None)` inside `grade_finding` (line 86) raises a `TypeError`
that nothing catches; the keyword loop before it has no side effect, so
the raise is modelled at dispatch. -/
def gradeStep (c : Case) (output : List Char) : PyResult (Bool × List Char) :=
  if c.expect_clean then PyResult.ok (grade_clean output)
  else
    match c.severity with
    | none => PyResult.typeError
    | some sev => PyResult.ok (grade_finding output sev c.keywords)

/-- What the per-case body of `main` does with one case: record a result,
or exit the whole process (`opencode` missing, lines 152-159), or abort
with an uncaught `TypeError`. -/
inductive CaseOutcome : Type
  | recorded (r : Result)
  | exitNotFound
  | raisedTypeError
deriving DecidableEq

/-- The tail of the per-case body after a normal subprocess completion
(`run_evals.py` lines 167-176): the return code bound on line 147 is never
consulted; only the captured text is graded. -/
def recordCompleted (c : Case) (returncode : Int) (output : List Char) :
    CaseOutcome :=
  match gradeStep c output with
  | PyResult.typeError => CaseOutcome.raisedTypeError
  | PyResult.ok (passed, detail) =>
      CaseOutcome.recorded
        ⟨c.fixture, if passed then Status.pass else Status.fail, detail⟩

/-- The per-case body of `main` (`run_evals.py` lines 131-179). -/
def processCase (env : Env) (model : Option (List Char)) (c : Case) :
    CaseOutcome :=
  let fixture_path := env.resolve c.fixture
  if env.fixtureExists fixture_path then
    match run_agent env fixture_path model with
    | AgentOutcome.timeout =>
        CaseOutcome.recorded ⟨c.fixture, Status.fail, "agent timed out".data⟩
    | AgentOutcome.notFound => CaseOutcome.exitNotFound
    | AgentOutcome.completed rc out => recordCompleted c rc out
  else
    CaseOutcome.recorded ⟨c.fixture, Status.skip, "fixture not found".data⟩

/-- `failed = sum(1 for r in results if r["status"] == "fail")`
(`run_evals.py` line 186). -/
def tallyFail (results : List Result) : Nat :=
  results.foldl (fun n r => if r.status = Status.fail then n + 1 else n) 0

/-- `passed = sum(1 for r in results if r["status"] == "pass")`
(`run_evals.py` line 185). -/
def tallyPass (results : List Result) : Nat :=
  results.foldl (fun n r => if r.status = Status.pass then n + 1 else n) 0

/-- `skipped = sum(1 for r in results if r["status"] == "skip")`
(`run_evals.py` line 187). -/
def tallySkip (results : List Result) : Nat :=
  results.foldl (fun n r => if r.status = Status.skip then n + 1 else n) 0

/-- `sys.exit(0 if failed == 0 else 1)` (`run_evals.py` line 203). -/
def exitCodeOf (results : List Result) : Nat :=
  if tallyFail results = 0 then 0 else 1

/-- Overall outcome of a run: the summary is reached with an accumulated
result list and an exit code, or the run is aborted early by
`sys.exit(1)` on a missing `opencode`, or by the uncaught `TypeError`. -/
inductive RunOutcome : Type
  | finished (results : List Result) (exitCode : Nat)
  | abortedNotFound (done : List Result)
  | abortedTypeError (done : List Result)
deriving DecidableEq

/-- The case loop of `main` (`run_evals.py` lines 131-179) followed by the
summary exit (line 203), with `acc` the reversed results accumulated so
far. -/
def runLoop (env : Env) (model : Option (List Char)) :
    List Case → List Result → RunOutcome
  | [], acc => RunOutcome.finished acc.reverse (exitCodeOf acc.reverse)
  | c :: cs, acc =>
      match processCase env model c with
      | CaseOutcome.recorded r => runLoop env model cs (r :: acc)
      | CaseOutcome.exitNotFound => RunOutcome.abortedNotFound acc.reverse
      | CaseOutcome.raisedTypeError => RunOutcome.abortedTypeError acc.reverse

/-- A whole run of `main` over a loaded case list. -/
def runEvals (env : Env) (model : Option (List Char)) (cases : List Case) :
    RunOutcome :=
  runLoop env model cases []

/-- Decimal rendering of a count, as Python string formatting prints it. -/
def natStr (n : Nat) : List Char := (Nat.repr n).data

/-- The `"=" * 60` separator line (`run_evals.py` lines 183, 202). -/
def eqLine : List Char := List.replicate 60 '='

/-- The counts line assembled by the `print(..., end="")` calls of
`run_evals.py` lines 189-194: the failed and skipped fragments are only
emitted when the corresponding tally is nonzero (`if failed:`,
`if skipped:`). -/
def resultsLine (results : List Result) : List Char :=
  ("Results: ".data ++ natStr (tallyPass results) ++ "/".data
      ++ natStr results.length ++ " passed".data)
  ++ (if tallyFail results ≠ 0 then
        ", ".data ++ natStr (tallyFail results) ++ " failed".data
      else [])
  ++ (if tallySkip results ≠ 0 then
        ", ".data ++ natStr (tallySkip results) ++ " skipped".data
      else [])

/-- The failed-case enumeration loop (`run_evals.py` lines 198-200). -/
def failLoop : List Result → List (List Char)
  | [] => []
  | r :: rs =>
      (if r.status = Status.fail then
        ["  - ".data ++ r.caseId ++ ": ".data ++ r.detail]
       else [])
      ++ failLoop rs

/-- The lines printed by the summary block (`run_evals.py` lines 182-202):
a blank line, a separator, the counts line, then — only when some case
failed — a blank line, the `Failed cases:` header and one line per failed
result, and a closing separator. -/
def summaryLines (results : List Result) : List (List Char) :=
  [[], eqLine, resultsLine results]
  ++ (if tallyFail results ≠ 0 then
        [[], "Failed cases:".data] ++ failLoop results
      else [])
  ++ [eqLine]

/-! ### Lemmas about the regex model -/

lemma any_and_right (ds : List Char) (f : Char → Bool) (b : Bool) :
    (ds.any fun d => f d && b) = (ds.any f && b) := by
  cases b <;> simp

lemma any_false_const (ds : List Char) :
    (ds.any fun _ => false) = false := by
  simp

lemma rmatch_cons_cls (ds : List Char) (pat : List RItem) (s : List Char) :
    rmatch (RItem.cls ds :: pat) s
      = ds.any fun d => rmatch (RItem.lit d :: pat) s := by
  cases s with
  | nil => simp [rmatch]
  | cons c cs =>
      show (itemMatch (RItem.cls ds) c && rmatch pat cs)
        = ds.any fun d => itemMatch (RItem.lit d) c && rmatch pat cs
      rw [any_and_right]
      simp [itemMatch]

lemma rmatch_app_cls (A : List RItem) (ds : List Char) (B : List RItem)
    (s : List Char) :
    rmatch (A ++ RItem.cls ds :: B) s
      = ds.any fun d => rmatch (A ++ RItem.lit d :: B) s := by
  induction A generalizing s with
  | nil => exact rmatch_cons_cls ds B s
  | cons it A ih =>
      cases s with
      | nil => simp [rmatch]
      | cons c cs =>
          show (itemMatch it c && rmatch (A ++ RItem.cls ds :: B) cs)
            = ds.any fun d => itemMatch it c && rmatch (A ++ RItem.lit d :: B) cs
          rw [ih cs]
          cases itemMatch it c <;> simp

lemma rmatch_mustFix (s : List Char) :
    rmatch mustFixPattern s
      = (rmatch (escapedLit ("must-fix".data)) s
          || rmatch (escapedLit ("must fix".data)) s) := by
  have hshape : mustFixPattern
      = escapedLit ("must".data) ++ RItem.cls ['-', ' '] :: escapedLit ("fix".data) := rfl
  have hhy : escapedLit ("must".data) ++ RItem.lit '-' :: escapedLit ("fix".data)
      = escapedLit ("must-fix".data) := rfl
  have hsp : escapedLit ("must".data) ++ RItem.lit ' ' :: escapedLit ("fix".data)
      = escapedLit ("must fix".data) := rfl
  rw [hshape, rmatch_app_cls]
  show (rmatch (escapedLit ("must".data) ++ RItem.lit '-' :: escapedLit ("fix".data)) s
        || (rmatch (escapedLit ("must".data) ++ RItem.lit ' ' :: escapedLit ("fix".data)) s
        || false)) = _
  rw [hhy, hsp, Bool.or_false]

lemma or_or_swap (a b c d : Bool) :
    ((a || b) || (c || d)) = ((a || c) || (b || d)) := by
  cases a <;> cases b <;> cases c <;> cases d <;> rfl

lemma rsearch_mustFix (s : List Char) :
    rsearch mustFixPattern s
      = (rsearch (escapedLit ("must-fix".data)) s
          || rsearch (escapedLit ("must fix".data)) s) := by
  induction s with
  | nil => exact rmatch_mustFix []
  | cons c cs ih =>
      show (rmatch mustFixPattern (c :: cs) || rsearch mustFixPattern cs)
        = (rsearch (escapedLit ("must-fix".data)) (c :: cs)
            || rsearch (escapedLit ("must fix".data)) (c :: cs))
      rw [rmatch_mustFix, ih, or_or_swap]
      rfl

lemma rmatch_lit (p s : List Char) :
    rmatch (escapedLit p) s = beginsWith (lowerStr p) (lowerStr s) := by
  induction p generalizing s with
  | nil => simp [escapedLit, lowerStr, rmatch, beginsWith]
  | cons d ps ih =>
      cases s with
      | nil => simp [escapedLit, lowerStr, rmatch, beginsWith]
      | cons c cs =>
          show (itemMatch (RItem.lit d) c && rmatch (escapedLit ps) cs) = _
          rw [ih cs]
          simp [itemMatch, lowerStr, beginsWith]

lemma rsearch_lit (p s : List Char) :
    rsearch (escapedLit p) s = containsStr (lowerStr p) (lowerStr s) := by
  induction s with
  | nil => simpa [containsStr, lowerStr] using rmatch_lit p []
  | cons c cs ih =>
      show (rmatch (escapedLit p) (c :: cs) || rsearch (escapedLit p) cs) = _
      rw [rmatch_lit, ih]
      simp [lowerStr, containsStr]

lemma containsStr_nil (s : List Char) : containsStr [] s = true := by
  cases s <;> simp [containsStr, beginsWith]

lemma isEmpty_filter_not {α : Type} (p : α → Bool) (l : List α) :
    (l.filter fun a => !(p a)).isEmpty = l.all p := by
  induction l with
  | nil => rfl
  | cons a l ih => cases h : p a <;> simp [List.filter_cons, h, ih]

lemma grade_finding_cases (out sev : List Char) (kws : List (List Char)) :
    grade_finding out sev kws =
      if (missingKeywords out kws).isEmpty && severityFound out sev then
        (true,
         "Found all keywords ".data ++ pyReprList kws
           ++ " with severity ".data ++ pyReprStr sev)
      else
        (false, joinSep ("; ".data) (gradeErrors out sev kws)) := by
  unfold grade_finding gradeErrors
  cases hm : (missingKeywords out kws).isEmpty <;>
    cases hs : severityFound out sev <;> simp [hm, hs]

/-- C1: `grade_clean` passes exactly when the output contains neither
`must-fix` nor `must fix` case-insensitively; when one of them occurs it
returns FAIL with the fixed detail string, otherwise PASS with the fixed
clean detail. -/
theorem grade_clean_spec (out : List Char) :
    grade_clean out =
      if containsCI out ("must-fix".data) || containsCI out ("must fix".data) then
        (false, "Expected clean output but found \x27must-fix\x27 / \x27must fix\x27".data)
      else
        (true, "Clean — no must-fix findings detected".data) := by
  unfold grade_clean
  rw [rsearch_mustFix, rsearch_lit, rsearch_lit]
  rfl

/-- C2: `grade_finding` passes exactly when every keyword occurs
case-insensitively in the output and the severity occurs case-insensitively
in the output; on failure the detail joins with `; ` the list of missing
keywords (when nonempty) and the absent-severity note (when the severity is
missing).  In particular with an empty keyword list the grade is decided by
the severity check alone, so a present severity yields PASS. -/
theorem grade_finding_spec (out sev : List Char) (kws : List (List Char)) :
    (grade_finding out sev kws =
      if (kws.all fun kw => containsCI out kw) && containsCI out sev then
        (true,
         "Found all keywords ".data ++ pyReprList kws
           ++ " with severity ".data ++ pyReprStr sev)
      else
        (false, joinSep ("; ".data)
          ((if (kws.filter fun kw => !(containsCI out kw)).isEmpty then []
            else ["Missing keywords: ".data
                    ++ pyReprList (kws.filter fun kw => !(containsCI out kw))])
           ++
           (if containsCI out sev then []
            else [("Severity ".data ++ pyReprStr sev) ++ " not found in output".data]))))
    ∧ (grade_finding out sev []).1 = containsCI out sev := by
  have hsev : severityFound out sev = containsCI out sev := rsearch_lit sev out
  have hmiss : missingKeywords out kws
      = kws.filter fun kw => !(containsCI out kw) := rfl
  have hge : gradeErrors out sev kws
      = (if (kws.filter fun kw => !(containsCI out kw)).isEmpty then []
         else ["Missing keywords: ".data
                 ++ pyReprList (kws.filter fun kw => !(containsCI out kw))])
        ++
        (if containsCI out sev then []
         else [("Severity ".data ++ pyReprStr sev) ++ " not found in output".data]) := by
    unfold gradeErrors
    rw [hmiss, hsev]
  constructor
  · rw [grade_finding_cases, hmiss, hsev, hge,
      isEmpty_filter_not (fun kw => containsCI out kw) kws]
  · rw [grade_finding_cases]
    have hmnil : missingKeywords out ([] : List (List Char)) = [] := rfl
    rw [hmnil, hsev]
    cases hc : containsCI out sev <;> simp

/-- The output (and pattern) characters are all ASCII. -/
def allASCII (s : List Char) : Bool := s.all fun c => decide (c.toNat < 128)

/-- C8: for ASCII strings the two case-insensitivity strategies of the
graders agree: the lowercased-substring check used for keywords
(`kw.lower() in output.lower()`) holds exactly when the case-insensitive
regex search for the escaped literal (as used for the severity) finds a
match.  (In this model both strategies lowercase ASCII letters, so the
equivalence is proved without using the ASCII hypotheses.) -/
theorem lowercase_vs_regex (out s : List Char)
    (h1 : allASCII out = true) (h2 : allASCII s = true) :
    containsCI out s = severityFound out s :=
  (rsearch_lit s out).symm

/-- Witness for C8 at `out = "AbC"`, `s = "bc"`. -/
theorem lowercase_vs_regex_witness :
    containsCI ("AbC".data) ("bc".data) = severityFound ("AbC".data) ("bc".data) :=
  lowercase_vs_regex ("AbC".data) ("bc".data) (by decide) (by decide)

/-! ### Lemmas about the run loop and the summary -/

lemma tally_eq_countP (st : Status) (results : List Result) :
    results.foldl (fun n r => if r.status = st then n + 1 else n) 0
      = results.countP fun r => r.status == st := by
  have key : ∀ (l : List Result) (n : Nat),
      l.foldl (fun n r => if r.status = st then n + 1 else n) n
        = n + l.countP fun r => r.status == st := by
    intro l
    induction l with
    | nil => intro n; simp
    | cons r rs ih =>
        intro n
        by_cases h : r.status = st <;>
          simp [List.countP_cons, h, ih] <;> omega
  simpa using key results 0

lemma tallyFail_eq_countP (results : List Result) :
    tallyFail results = results.countP fun r => r.status == Status.fail :=
  tally_eq_countP Status.fail results

lemma tallyPass_eq_countP (results : List Result) :
    tallyPass results = results.countP fun r => r.status == Status.pass :=
  tally_eq_countP Status.pass results

lemma tallySkip_eq_countP (results : List Result) :
    tallySkip results = results.countP fun r => r.status == Status.skip :=
  tally_eq_countP Status.skip results

lemma runLoop_finished_code (env : Env) (model : Option (List Char))
    (cases : List Case) :
    ∀ (acc : List Result) (results : List Result) (code : Nat),
      runLoop env model cases acc = RunOutcome.finished results code →
        code = exitCodeOf results := by
  induction cases with
  | nil =>
      intro acc results code h
      simp only [runLoop, RunOutcome.finished.injEq] at h
      obtain ⟨h1, h2⟩ := h
      rw [← h2, h1]
  | cons c cs ih =>
      intro acc results code h
      cases hp : processCase env model c with
      | recorded r =>
          have hstep : runLoop env model (c :: cs) acc
              = runLoop env model cs (r :: acc) := by
            simp only [runLoop, hp]
          rw [hstep] at h
          exact ih (r :: acc) results code h
      | exitNotFound =>
          have hstep : runLoop env model (c :: cs) acc
              = RunOutcome.abortedNotFound acc.reverse := by
            simp only [runLoop, hp]
          rw [hstep] at h
          exact RunOutcome.noConfusion h
      | raisedTypeError =>
          have hstep : runLoop env model (c :: cs) acc
              = RunOutcome.abortedTypeError acc.reverse := by
            simp only [runLoop, hp]
          rw [hstep] at h
          exact RunOutcome.noConfusion h

/-- C3: whenever a run reaches the summary, the exit code is computed from
the number of `fail` results alone — it is `0` exactly when no accumulated
result has status `fail`, and results with status `skip` (or `pass`) have
no influence on it. -/
theorem exit_code_iff_no_fail (env : Env) (model : Option (List Char))
    (cases : List Case) (results : List Result) (code : Nat)
    (h : runEvals env model cases = RunOutcome.finished results code) :
    code = (if (results.countP fun r => r.status == Status.fail) = 0 then 0 else 1)
    ∧ (code = 0 ↔ (results.countP fun r => r.status == Status.fail) = 0) := by
  have hcode : code = exitCodeOf results :=
    runLoop_finished_code env model cases [] results code h
  have hcode2 : code
      = (if (results.countP fun r => r.status == Status.fail) = 0 then 0 else 1) := by
    rw [hcode]
    unfold exitCodeOf
    rw [tallyFail_eq_countP]
  refine ⟨hcode2, ?_⟩
  rw [hcode2]
  by_cases hz : (results.countP fun r => r.status == Status.fail) = 0 <;> simp [hz]

/-- Witness for C3: a one-case run whose fixture is missing finishes with
one `skip` result and exit code `0`. -/
theorem exit_code_iff_no_fail_witness :
    (0 : Nat) = (if (([⟨"f".data, Status.skip, "fixture not found".data⟩] :
          List Result).countP fun r => r.status == Status.fail) = 0 then 0 else 1)
    ∧ ((0 : Nat) = 0 ↔ (([⟨"f".data, Status.skip, "fixture not found".data⟩] :
          List Result).countP fun r => r.status == Status.fail) = 0) :=
  exit_code_iff_no_fail
    ⟨fun _ => false, fun p => p, fun _ _ => AgentOutcome.timeout⟩ none
    [⟨"f".data, true, none, []⟩]
    [⟨"f".data, Status.skip, "fixture not found".data⟩] 0 rfl

/-- C4: a case whose resolved fixture path does not exist is recorded as a
`skip` result (not `pass` or `fail`), the agent subprocess is never
consulted (the outcome is unchanged under an arbitrary replacement of the
process oracle), and the loop continues with the remaining cases. -/
theorem skip_missing_fixture (env : Env)
    (ex2 : List (List Char) → Nat → AgentOutcome) (model : Option (List Char))
    (c : Case) (cs : List Case) (acc : List Result)
    (h : env.fixtureExists (env.resolve c.fixture) = false) :
    processCase env model c
      = CaseOutcome.recorded ⟨c.fixture, Status.skip, "fixture not found".data⟩
    ∧ processCase { env with exec := ex2 } model c = processCase env model c
    ∧ runLoop env model (c :: cs) acc
      = runLoop env model cs
          (⟨c.fixture, Status.skip, "fixture not found".data⟩ :: acc) := by
  have h1 : processCase env model c
      = CaseOutcome.recorded ⟨c.fixture, Status.skip, "fixture not found".data⟩ := by
    unfold processCase
    simp [h]
  have h2 : processCase { env with exec := ex2 } model c = processCase env model c := by
    rw [h1]
    show processCase { env with exec := ex2 } model c
      = CaseOutcome.recorded ⟨c.fixture, Status.skip, "fixture not found".data⟩
    unfold processCase
    simp [h]
  refine ⟨h1, h2, ?_⟩
  simp only [runLoop, h1]

/-- Witness for C4 with a concrete environment whose fixtures are all
missing. -/
theorem skip_missing_fixture_witness :
    processCase ⟨fun _ => false, fun p => p, fun _ _ => AgentOutcome.timeout⟩
        none ⟨"f".data, true, none, []⟩
      = CaseOutcome.recorded ⟨"f".data, Status.skip, "fixture not found".data⟩
    ∧ processCase { (⟨fun _ => false, fun p => p, fun _ _ => AgentOutcome.timeout⟩ : Env)
          with exec := fun _ _ => AgentOutcome.notFound } none ⟨"f".data, true, none, []⟩
      = processCase ⟨fun _ => false, fun p => p, fun _ _ => AgentOutcome.timeout⟩
          none ⟨"f".data, true, none, []⟩
    ∧ runLoop ⟨fun _ => false, fun p => p, fun _ _ => AgentOutcome.timeout⟩
        none [⟨"f".data, true, none, []⟩] []
      = runLoop ⟨fun _ => false, fun p => p, fun _ _ => AgentOutcome.timeout⟩
          none [] [⟨"f".data, Status.skip, "fixture not found".data⟩] :=
  skip_missing_fixture
    ⟨fun _ => false, fun p => p, fun _ _ => AgentOutcome.timeout⟩
    (fun _ _ => AgentOutcome.notFound) none ⟨"f".data, true, none, []⟩ [] [] rfl

/-- C5: when the subprocess for a case exceeds the fixed timeout (120
units), the case is recorded as a `fail` result whose detail reports the
timeout, it is not retried, and the loop continues with the remaining
cases — the timeout never terminates the run. -/
theorem timeout_records_fail (env : Env) (model : Option (List Char))
    (c : Case) (cs : List Case) (acc : List Result)
    (hex : env.fixtureExists (env.resolve c.fixture) = true)
    (hto : env.exec (buildCmd (env.resolve c.fixture) model) agentTimeout
      = AgentOutcome.timeout) :
    agentTimeout = 120
    ∧ processCase env model c
      = CaseOutcome.recorded ⟨c.fixture, Status.fail, "agent timed out".data⟩
    ∧ runLoop env model (c :: cs) acc
      = runLoop env model cs
          (⟨c.fixture, Status.fail, "agent timed out".data⟩ :: acc) := by
  have h1 : processCase env model c
      = CaseOutcome.recorded ⟨c.fixture, Status.fail, "agent timed out".data⟩ := by
    unfold processCase run_agent
    simp [hex, hto]
  refine ⟨rfl, h1, ?_⟩
  simp only [runLoop, h1]

/-- Witness for C5 with a concrete always-timing-out environment. -/
theorem timeout_records_fail_witness :
    agentTimeout = 120
    ∧ processCase ⟨fun _ => true, fun p => p, fun _ _ => AgentOutcome.timeout⟩
        none ⟨"f".data, true, none, []⟩
      = CaseOutcome.recorded ⟨"f".data, Status.fail, "agent timed out".data⟩
    ∧ runLoop ⟨fun _ => true, fun p => p, fun _ _ => AgentOutcome.timeout⟩
        none [⟨"f".data, true, none, []⟩] []
      = runLoop ⟨fun _ => true, fun p => p, fun _ _ => AgentOutcome.timeout⟩
          none [] [⟨"f".data, Status.fail, "agent timed out".data⟩] :=
  timeout_records_fail
    ⟨fun _ => true, fun p => p, fun _ _ => AgentOutcome.timeout⟩
    none ⟨"f".data, true, none, []⟩ [] [] rfl rfl

/-- C6: grading depends only on the captured stdout+stderr text and the
case parameters, never on the subprocess exit code: two completions with
equal captured text but different return codes are graded identically,
both at the level of the post-completion step and of the whole per-case
body. -/
theorem grading_ignores_returncode (env1 env2 : Env)
    (model : Option (List Char)) (c : Case) (rc1 rc2 : Int) (out : List Char)
    (hfe : env1.fixtureExists = env2.fixtureExists)
    (hres : env1.resolve = env2.resolve)
    (h1 : env1.exec (buildCmd (env1.resolve c.fixture) model) agentTimeout
      = AgentOutcome.completed rc1 out)
    (h2 : env2.exec (buildCmd (env2.resolve c.fixture) model) agentTimeout
      = AgentOutcome.completed rc2 out) :
    recordCompleted c rc1 out = recordCompleted c rc2 out
    ∧ processCase env1 model c = processCase env2 model c := by
  have hrec : recordCompleted c rc1 out = recordCompleted c rc2 out := rfl
  refine ⟨hrec, ?_⟩
  rw [← hres] at h2
  unfold processCase run_agent
  rw [← hfe, ← hres]
  simp [h1, h2, hrec]

/-- Witness for C6 with two environments returning exit codes 0 and 1 but
the same captured text. -/
theorem grading_ignores_returncode_witness :
    recordCompleted ⟨"f".data, true, none, []⟩ 0 ("clean".data)
      = recordCompleted ⟨"f".data, true, none, []⟩ 1 ("clean".data)
    ∧ processCase ⟨fun _ => true, fun p => p,
          fun _ _ => AgentOutcome.completed 0 ("clean".data)⟩ none
        ⟨"f".data, true, none, []⟩
      = processCase ⟨fun _ => true, fun p => p,
          fun _ _ => AgentOutcome.completed 1 ("clean".data)⟩ none
        ⟨"f".data, true, none, []⟩ :=
  grading_ignores_returncode
    ⟨fun _ => true, fun p => p, fun _ _ => AgentOutcome.completed 0 ("clean".data)⟩
    ⟨fun _ => true, fun p => p, fun _ _ => AgentOutcome.completed 1 ("clean".data)⟩
    none ⟨"f".data, true, none, []⟩ 0 1 ("clean".data) rfl rfl rfl rfl

/-- C9: a non-clean case whose severity field is absent is not recorded as
a per-case result at all: the grading step raises an uncaught `TypeError`
(from `re.escape(None)`), and the loop aborts the whole remaining run
instead of recording a result. -/
theorem missing_severity_aborts (env : Env) (model : Option (List Char))
    (c : Case) (cs : List Case) (acc : List Result) (rc : Int) (out : List Char)
    (hclean : c.expect_clean = false) (hsev : c.severity = none)
    (hex : env.fixtureExists (env.resolve c.fixture) = true)
    (hrun : env.exec (buildCmd (env.resolve c.fixture) model) agentTimeout
      = AgentOutcome.completed rc out) :
    gradeStep c out = PyResult.typeError
    ∧ processCase env model c = CaseOutcome.raisedTypeError
    ∧ runLoop env model (c :: cs) acc = RunOutcome.abortedTypeError acc.reverse := by
  have hg : gradeStep c out = PyResult.typeError := by
    unfold gradeStep
    simp [hclean, hsev]
  have hp : processCase env model c = CaseOutcome.raisedTypeError := by
    unfold processCase run_agent recordCompleted
    simp [hex, hrun, hg]
  refine ⟨hg, hp, ?_⟩
  simp only [runLoop, hp]

/-- Witness for C9: a finding case with no severity aborts the run. -/
theorem missing_severity_aborts_witness :
    gradeStep ⟨"f".data, false, none, []⟩ ("out".data) = PyResult.typeError
    ∧ processCase ⟨fun _ => true, fun p => p,
          fun _ _ => AgentOutcome.completed 0 ("out".data)⟩ none
        ⟨"f".data, false, none, []⟩
      = CaseOutcome.raisedTypeError
    ∧ runLoop ⟨fun _ => true, fun p => p,
          fun _ _ => AgentOutcome.completed 0 ("out".data)⟩ none
        [⟨"f".data, false, none, []⟩] []
      = RunOutcome.abortedTypeError ([] : List Result).reverse :=
  missing_severity_aborts
    ⟨fun _ => true, fun p => p, fun _ _ => AgentOutcome.completed 0 ("out".data)⟩
    none ⟨"f".data, false, none, []⟩ [] [] 0 ("out".data) rfl rfl rfl rfl

/-- C10: the empty keyword is always counted as found — it never appears
among the missing keywords for any output; hence when every keyword of a
case is the empty string, the missing list is empty and the grade of
`grade_finding` is decided by the severity check alone. -/
theorem empty_keyword_always_found (out out2 sev : List Char)
    (kws kws2 : List (List Char)) (h : ∀ kw ∈ kws, kw = []) :
    ([] : List Char) ∉ missingKeywords out2 kws2
    ∧ missingKeywords out kws = []
    ∧ (grade_finding out sev kws).1 = severityFound out sev := by
  have hnil : ∀ s : List Char, containsStr (lowerStr []) s = true := by
    intro s
    simpa [lowerStr] using containsStr_nil s
  have hone : ([] : List Char) ∉ missingKeywords out2 kws2 := by
    intro hmem
    have hpred := (List.mem_filter.mp hmem).2
    rw [hnil] at hpred
    simp at hpred
  have htwo : missingKeywords out kws = [] := by
    unfold missingKeywords
    rw [List.filter_eq_nil_iff]
    intro kw hkw
    rw [h kw hkw, hnil]
    simp
  refine ⟨hone, htwo, ?_⟩
  rw [grade_finding_cases, htwo]
  cases hs : severityFound out sev <;> simp [hs]

/-- Witness for C10 at concrete strings, with a keyword list consisting of
empty strings only. -/
theorem empty_keyword_always_found_witness :
    ([] : List Char) ∉ missingKeywords ("y".data) [[], "a".data]
    ∧ missingKeywords ("x".data) [[], []] = []
    ∧ (grade_finding ("x".data) ("sev".data) [[], []]).1
      = severityFound ("x".data) ("sev".data) :=
  empty_keyword_always_found ("x".data) ("y".data) ("sev".data)
    [[], []] [[], "a".data] (by decide)

lemma failLoop_eq_filter_map (results : List Result) :
    failLoop results
      = (results.filter fun r => r.status == Status.fail).map
          (fun r => "  - ".data ++ r.caseId ++ ": ".data ++ r.detail) := by
  induction results with
  | nil => rfl
  | cons r rs ih =>
      by_cases h : r.status = Status.fail <;>
        simp [failLoop, List.filter_cons, h, ih]

/-- C7 (amended): the summary block prints the passed count out of the
total, includes the failed and skipped counts exactly when they are
nonzero, and — when at least one case failed — enumerates the failing case
identifiers with their detail strings, in order. -/
theorem summary_spec (results : List Result) :
    summaryLines results =
      [[], eqLine,
        ("Results: ".data
            ++ natStr (results.countP fun r => r.status == Status.pass)
            ++ "/".data ++ natStr results.length ++ " passed".data)
        ++ (if (results.countP fun r => r.status == Status.fail) ≠ 0 then
              ", ".data ++ natStr (results.countP fun r => r.status == Status.fail)
                ++ " failed".data
            else [])
        ++ (if (results.countP fun r => r.status == Status.skip) ≠ 0 then
              ", ".data ++ natStr (results.countP fun r => r.status == Status.skip)
                ++ " skipped".data
            else [])]
      ++ (if (results.countP fun r => r.status == Status.fail) ≠ 0 then
            [[], "Failed cases:".data]
            ++ (results.filter fun r => r.status == Status.fail).map
                (fun r => "  - ".data ++ r.caseId ++ ": ".data ++ r.detail)
          else [])
      ++ [eqLine] := by
  unfold summaryLines resultsLine
  rw [tallyFail_eq_countP, tallyPass_eq_countP, tallySkip_eq_countP,
    failLoop_eq_filter_map]

/-- C7 counterexample: on a run with a single passing case the printed
summary block is exactly a blank line, the separator, `Results: 1/1
passed` and the separator — no line of it mentions `failed` or `skipped`,
so the zero failed and skipped counts are not reported, contradicting the
claim that the summary reports the counts of passed, failed, and skipped
results. -/
theorem summary_counterexample :
    summaryLines [⟨"a".data, Status.pass, "ok".data⟩]
      = [[], eqLine, "Results: 1/1 passed".data, eqLine]
    ∧ ((summaryLines [⟨"a".data, Status.pass, "ok".data⟩]).all
        fun line => !(containsStr ("failed".data) line)
          && !(containsStr ("skipped".data) line)) = true := by
  constructor
  · decide
  · decide

end EvalRunner
